import Mathlib

/-!
Verification development for the prisma-zod-generator transformation engine.

The definitions below are a shallow embedding of the schema-text generator:
the `Transformer` class of the main source file (its per-field alternative
mapping, reference resolution, union combination, object/enum/operation unit
assembly and path computation) and the include-input generator of
`src/helpers/include-helpers.ts`.  Strings are modelled as Lean `String`s and
the class's mutable instance state (`schemaImports`, `hasJson`) as an explicit
state value threaded through the generation functions.  Path computations
mirror Node's posix `path` module.  Functions whose source is not part of the
provided files (the small `helpers` predicates) are modelled from the spec and
marked as such in their doc comments.
-/

namespace PrismaZodGen

/-! ## String helpers (JS / Node string primitives, on `List Char`) -/

/-- First-occurrence test: does `p` occur as a contiguous sublist of `l`?
(JS `String.prototype.includes`). -/
def occursInL (p : List Char) : List Char → Bool
  | [] => p.isPrefixOf ([] : List Char)
  | c :: t => p.isPrefixOf (c :: t) || occursInL p t

/-- Substring containment (JS `includes`). -/
def occursIn (pat s : String) : Bool := occursInL pat.data s.data

/-- Count of (possibly overlapping) occurrences of `p` in `l`. -/
def countOccurL (p : List Char) : List Char → Nat
  | [] => 0
  | c :: t => (if p.isPrefixOf (c :: t) then 1 else 0) + countOccurL p t

/-- Occurrence count of a pattern in a string. -/
def countOccursIn (pat s : String) : Nat := countOccurL pat.data s.data

/-- Replace the first occurrence of `pat` (JS `String.prototype.replace` with a
string pattern replaces only the first match). -/
def replaceFirstL (pat repl : List Char) : List Char → List Char
  | [] => if pat.isPrefixOf ([] : List Char) then repl else []
  | c :: t =>
    if pat.isPrefixOf (c :: t) then repl ++ (c :: t).drop pat.length
    else c :: replaceFirstL pat repl t

/-- Replace the first occurrence of `pat` in `s` by `repl`. -/
def replaceFirst (s pat repl : String) : String :=
  ⟨replaceFirstL pat.data repl.data s.data⟩

/-- JS `s.charAt(0).toUpperCase() + s.slice(1)` (ASCII upper-casing). -/
def capitalizeFirst (s : String) : String :=
  match s.data with
  | [] => ""
  | c :: t => ⟨c.toUpper :: t⟩

/-- JS `Array.prototype.join`. -/
def joinSep (sep : String) : List String → String
  | [] => ""
  | [a] => a
  | a :: rest => a ++ sep ++ joinSep sep rest

/-- JS `String.prototype.startsWith`. -/
def strStartsWith (s pre : String) : Bool := pre.data.isPrefixOf s.data

/-- JS `String.prototype.endsWith`. -/
def strEndsWith (s suf : String) : Bool := suf.data.isSuffixOf s.data

/-- Single-character containment (JS `includes` with a one-character needle). -/
def containsChar (s : String) (c : Char) : Bool := s.data.any (· == c)

/-- Whitespace test used by JS `String.prototype.trim` (the characters that
actually occur at the ends of the generated field lines). -/
def isWsChar (c : Char) : Bool :=
  c == ' ' || c == '\t' || c == '\n' || c == '\r'

/-- JS `String.prototype.trim`. -/
def jsTrim (s : String) : String :=
  ⟨((s.data.dropWhile isWsChar).reverse.dropWhile isWsChar).reverse⟩

/-! ## Data model (DMMF metadata, as consumed by the transformer) -/

/-- One `PrismaDMMF.SchemaArgInputType`: an alternative a field may take.
The source's `namespace` property is called `ns` here (`namespace` is a Lean
keyword); `type` is always a string in the inputs the generator handles. -/
structure InputType where
  type : String
  isList : Bool
  location : String
  ns : Option String
deriving DecidableEq

/-- One `PrismaDMMF.SchemaArg`: a named field with its alternatives. -/
structure SchemaArg where
  name : String
  isRequired : Bool
  isNullable : Bool
  inputTypes : List InputType
deriving DecidableEq

/-! ## TypeMapper: scalar alternative mapping (`generateObjectSchemaField`'s
scalar branches) -/

/-- The scalar branch of the alternative `reduce` in
`Transformer.generateObjectSchemaField`: the base zod validator for a scalar
metadata type, `none` when no scalar branch matches. -/
def scalarBaseValidator (t : String) : Option String :=
  if t = "String" then some "z.string()"
  else if t = "Int" then some "z.number().int()"
  else if t = "Float" ∨ t = "Decimal" then some "z.number()"
  else if t = "BigInt" then some "z.bigint()"
  else if t = "Boolean" then some "z.boolean()"
  else if t = "DateTime" then some "z.coerce.date()"
  else if t = "Json" then some "jsonSchema"
  else if t = "True" then some "z.literal(true)"
  else if t = "Bytes" then some "z.instanceof(Uint8Array)"
  else none

/-- The scalar metadata type names recognized by the generator. -/
def scalarTypeNames : List String :=
  ["String", "Int", "Float", "Decimal", "BigInt", "Boolean", "DateTime",
   "Json", "True", "Bytes"]

/-- `Transformer.wrapWithZodValidators`: appends the `array` wrapper for a
list-valued alternative, then the `optional` wrapper for a non-required
field. -/
def wrapWithZodValidators (mainValidator : String) (field : SchemaArg)
    (it : InputType) : String :=
  mainValidator ++ (if it.isList then ".array()" else "")
    ++ (if field.isRequired then "" else ".optional()")

/-! ## ReferenceResolver (`generatePrismaStringLine`,
`checkIsModelQueryType`, `resolveModelQuerySchemaName`) -/

/-- Index of the first occurrence of `p` in `l` (JS `String.prototype.indexOf`),
`none` when absent. -/
def firstOccIdx (p : List Char) : List Char → Nat → Option Nat
  | [], i => if p.isPrefixOf ([] : List Char) then some i else none
  | c :: t, i => if p.isPrefixOf (c :: t) then some i else firstOccIdx p t (i + 1)

/-- `Transformer.checkIsModelQueryType`: recognizes a derived model-operation
type by the presence of the `FindManyArgs` marker (`String.prototype.includes`)
and splits off the model name before its first occurrence; the associated
query name is `findMany`. -/
def checkIsModelQueryType (t : String) : Option (String × String) :=
  match firstOccIdx "FindManyArgs".data t.data 0 with
  | some i => some (⟨t.data.take i⟩, "findMany")
  | none => none

/-- `Transformer.resolveModelQuerySchemaName`:
`Capitalize(modelName) ++ Capitalize(queryName) ++ "Schema"`. -/
def resolveModelQuerySchemaName (modelName queryName : String) : String :=
  capitalizeFirst modelName ++ capitalizeFirst queryName ++ "Schema"

/-- The `objectSchemaLine` of `generatePrismaStringLine`: the model-operation
schema name when the type is a derived model-query type, otherwise
`<type>ObjectSchema`. -/
def objectSchemaLineOf (t : String) : String :=
  match checkIsModelQueryType t with
  | some (m, q) => resolveModelQuerySchemaName m q
  | none => t ++ "ObjectSchema"

/-- `Transformer.generatePrismaStringLine`.  `name` is the transformer
instance's `this.name` (the composite type currently being generated);
`inputsLength` is the field's total alternative count. -/
def generatePrismaStringLine (name : String) (field : SchemaArg)
    (it : InputType) (inputsLength : Nat) : String :=
  let objectSchemaLine := objectSchemaLineOf it.type
  let enumSchemaLine := it.type ++ "Schema"
  let schema :=
    if it.type = name then objectSchemaLine
    else if it.location = "enumTypes" then enumSchemaLine
    else objectSchemaLine
  let arr := if it.isList then ".array()" else ""
  let opt := if field.isRequired then "" else ".optional()"
  if it.type = name ∨ (¬ it.location = "enumTypes" ∧ it.ns = some "prisma") then
    if inputsLength = 1 then
      "  " ++ field.name ++ ": " ++ ("z.lazy(() => " ++ schema ++ ")") ++ arr ++ opt
    else ("z.lazy(() => " ++ schema ++ ")") ++ arr ++ opt
  else
    if inputsLength = 1 then
      "  " ++ field.name ++ ": " ++ schema ++ arr ++ opt
    else schema ++ arr ++ opt

/-! ## AlternativeCombinator (`generateObjectSchemaField`) -/

/-- The body of the alternative `reduce` in `generateObjectSchemaField`: the
string pushed for one alternative, or `none` when the alternative is dropped
(neither a recognized scalar, an enum, nor a `prisma`-namespace reference).
In the source, the push in the non-scalar branch is guarded by
`inputType.namespace === 'prisma' || isEnum`; the accompanying
`typeof inputType.type === 'string'` guard (import bookkeeping only) is
always true in this model. -/
def altForInputType (name : String) (field : SchemaArg) (inputsLength : Nat)
    (it : InputType) : Option String :=
  match scalarBaseValidator it.type with
  | some v => some (wrapWithZodValidators v field it)
  | none =>
    if it.ns = some "prisma" ∨ it.location = "enumTypes" then
      some (generatePrismaStringLine name field it inputsLength)
    else none

/-- The `alternatives` accumulator of `generateObjectSchemaField`: the
`reduce` over the field's alternatives, pushing the emitted string for each
resolvable one. -/
def resolvableAlternatives (name : String) (field : SchemaArg) : List String :=
  field.inputTypes.foldl
    (fun r it =>
      r ++ (altForInputType name field field.inputTypes.length it).toList) []

/-- `Transformer.generateObjectSchemaField`: assembles one field line of the
composite object (the returned `Bool` is the source's `skipValidators`
flag). -/
def generateObjectSchemaField (name : String) (field : SchemaArg) :
    List (String × SchemaArg × Bool) :=
  if field.inputTypes.length = 0 then []
  else
    let alternatives := resolvableAlternatives name field
    if alternatives.length = 0 then []
    else
      let alternatives :=
        if alternatives.length > 1 then
          alternatives.map (fun a => replaceFirst a ".optional()" "")
        else alternatives
      let fieldName :=
        if alternatives.any (fun a => containsChar a ':') then ""
        else "  " ++ field.name ++ ":"
      let opt := if field.isRequired then "" else ".optional()"
      let resString :=
        if alternatives.length = 1 then joinSep ",\r\n" alternatives
        else "z.union([" ++ joinSep ",\r\n" alternatives ++ "])" ++ opt
      let resString :=
        if field.isNullable then resString ++ ".nullable()" else resString
      [("  " ++ fieldName ++ " " ++ resString ++ " ", field, true)]

/-! ## Instance state (`schemaImports`, `hasJson`) -/

/-- The mutable per-instance state of the transformer: the insertion-ordered
set of imports (`schemaImports : Set<string>`) and the `hasJson` flag. -/
structure TState where
  imports : List String
  hasJson : Bool
deriving DecidableEq

/-- `Transformer.addSchemaImport` (`Set.add`: ignore an element already
present, otherwise append in insertion order). -/
def addImport (s : String) (st : TState) : TState :=
  if s ∈ st.imports then st else { st with imports := st.imports ++ [s] }

/-- The side effects of one alternative of the `reduce` in
`generateObjectSchemaField`: the `Json` branch sets `hasJson`; the non-scalar
branch records a schema import when the alternative is kept and its type is
not the composite under generation. -/
def processInputType (name : String) (st : TState) (it : InputType) : TState :=
  match scalarBaseValidator it.type with
  | some _ => if it.type = "Json" then { st with hasJson := true } else st
  | none =>
    if it.ns = some "prisma" ∨ it.location = "enumTypes" then
      if it.type = name then st else addImport it.type st
    else st

/-- State effects of processing one field's alternatives. -/
def processFieldState (name : String) (st : TState) (field : SchemaArg) :
    TState :=
  field.inputTypes.foldl (processInputType name) st

/-- State effects of `generateObjectSchemaFields` over the whole field list. -/
def runState (name : String) (fields : List SchemaArg) (st : TState) : TState :=
  fields.foldl (processFieldState name) st

/-! ## Generation context (the write-once static `Transformer` fields) -/

/-- The static configuration of the generator: provider, toggles, registries,
paths, and the consulted `prismaClientConfig` entries.  `cwd` is the process
working directory against which Node's `path.relative` resolves. -/
structure GenCtx where
  provider : String
  previewFeatures : Option (List String)
  enumNames : List String
  rawOpsMap : List (String × String)
  outputPath : String
  prismaClientOutputPath : String
  isCustomPrismaClientOutputPath : Bool
  prismaClientProvider : String
  moduleFormat : Option String
  runtime : Option String
  importFileExtension : Option String
  isGenerateSelect : Bool
  isGenerateInclude : Bool
  cwd : String

/-! ## Posix path primitives (Node `path`, posix platform) -/

/-- JS `String.prototype.split('/')` (accumulator carries the current segment
reversed). -/
def splitSlashAux : List Char → List Char → List (List Char)
  | [], cur => [cur.reverse]
  | c :: t, cur =>
    if c = '/' then cur.reverse :: splitSlashAux t [] else splitSlashAux t (c :: cur)

/-- Split a path on the posix separator. -/
def splitSlash (s : String) : List String :=
  (splitSlashAux s.data []).map fun l => ⟨l⟩

/-- Node's `normalizeString`: resolve `.` and `..` segments, dropping empty
segments; `..` escapes upward only for relative paths. -/
def normalizeSegs (allowAboveRoot : Bool) (segs : List String) : List String :=
  segs.foldl
    (fun res s =>
      if s = "" ∨ s = "." then res
      else if s = ".." then
        if res ≠ [] ∧ res.getLast? ≠ some ".." then res.dropLast
        else if allowAboveRoot then res ++ [".."] else res
      else res ++ [s]) []

/-- Node `path.posix.normalize`. -/
def posixNormalize (p : String) : String :=
  if p = "" then "." else
  let isAbs := strStartsWith p "/"
  let hasTrail := strEndsWith p "/"
  let core := joinSep "/" (normalizeSegs (!isAbs) (splitSlash p))
  if core = "" then (if isAbs then "/" else if hasTrail then "./" else ".")
  else
    let core := if hasTrail then core ++ "/" else core
    if isAbs then "/" ++ core else core

/-- Node `path.posix.join` (two arguments). -/
def posixJoin (a b : String) : String :=
  let parts := [a, b].filter (· ≠ "")
  if parts = [] then "." else posixNormalize (joinSep "/" parts)

/-- Node `path.posix.resolve(cwd, p)`; `cwd` is assumed absolute. -/
def posixResolve (cwd p : String) : String :=
  let joined := if strStartsWith p "/" then p else cwd ++ "/" ++ p
  let isAbs := strStartsWith joined "/"
  let core := joinSep "/" (normalizeSegs (!isAbs) (splitSlash joined))
  if isAbs then (if core = "" then "/" else "/" ++ core)
  else (if core = "" then "." else core)

/-- Length of the common segment prefix of two split paths. -/
def commonPrefixLen : List String → List String → Nat
  | a :: as, b :: bs => if a = b then 1 + commonPrefixLen as bs else 0
  | _, _ => 0

/-- Node `path.posix.relative(fromP, toP)` after resolving both against the
working directory. -/
def posixRelative (cwd fromP toP : String) : String :=
  let f := posixResolve cwd fromP
  let t := posixResolve cwd toP
  if f = t then "" else
  let fs := (splitSlash f).filter (· ≠ "")
  let ts := (splitSlash t).filter (· ≠ "")
  let k := commonPrefixLen fs ts
  joinSep "/" (List.replicate (fs.length - k) ".." ++ ts.drop k)

/-- `Transformer.getSchemasPath`: the normalized output path's final
separator-split segment decides whether a `schemas` segment is appended. -/
def getSchemasPath (outputPath : String) : String :=
  let normalized := posixNormalize outputPath
  let segs := splitSlash normalized
  let lastSegment := segs.getLastD ""
  if lastSegment = "schemas" then outputPath else posixJoin outputPath "schemas"

/-! ## Import and unit-text rendering -/

/-- `Transformer.generateImportZodStatement`. -/
def zodImportStatement : String := "import \x7b z \x7d from 'zod';\n"

/-- Detection of the new `prisma-client` generator
(`generateImportPrismaStatement` / `getImportFileExtension`). -/
def isNewPrismaClientGenerator (ctx : GenCtx) : Bool :=
  ctx.prismaClientProvider == "prisma-client" || ctx.moduleFormat.isSome
    || ctx.runtime.isSome

/-- `Transformer.getImportFileExtension`: a dot-prefixed extension only for the
new generator with `moduleFormat = "esm"` and a truthy
`importFileExtension`. -/
def getImportFileExtension (ctx : GenCtx) : String :=
  if isNewPrismaClientGenerator ctx && ctx.moduleFormat == some "esm"
      && (match ctx.importFileExtension with | some e => e != "" | none => false) then
    "." ++ ctx.importFileExtension.getD ""
  else ""

/-- `Transformer.generateImportStatement`. -/
def generateImportStatement (ctx : GenCtx) (importName importPath : String) :
    String :=
  "import \x7b " ++ importName ++ " \x7d from '" ++ importPath
    ++ getImportFileExtension ctx ++ "'"

/-- One line of `Transformer.generateSchemaImports`: model-query references
are imported from the operation unit, enum names from the enums directory,
all others from sibling object units. -/
def schemaImportLine (ctx : GenCtx) (name : String) : String :=
  match checkIsModelQueryType name with
  | some (m, q) =>
    "import \x7b " ++ resolveModelQuerySchemaName m q ++ " \x7d from '../"
      ++ q ++ m ++ ".schema" ++ getImportFileExtension ctx ++ "'"
  | none =>
    if name ∈ ctx.enumNames then
      "import \x7b " ++ name ++ "Schema \x7d from '../enums/" ++ name
        ++ ".schema" ++ getImportFileExtension ctx ++ "'"
    else
      "import \x7b " ++ name ++ "ObjectSchema \x7d from './" ++ name
        ++ ".schema" ++ getImportFileExtension ctx ++ "'"

/-- `Transformer.generateSchemaImports` over the collected import set. -/
def generateSchemaImports (ctx : GenCtx) (st : TState) : String :=
  joinSep ";\r\n" (st.imports.map (schemaImportLine ctx))

/-- `Transformer.generateObjectSchemaImportStatements`. -/
def generateObjectSchemaImportStatements (ctx : GenCtx) (st : TState) : String :=
  zodImportStatement ++ generateSchemaImports ctx st ++ "\n\n"

/-- `Transformer.generateImportPrismaStatement`; `basePath` is the optional
explicit base directory argument. -/
def generateImportPrismaStatement (ctx : GenCtx) (basePath : Option String) :
    String :=
  let prismaClientImportPath :=
    if ctx.isCustomPrismaClientOutputPath then
      let fromPath := basePath.getD (posixJoin (getSchemasPath ctx.outputPath) "objects")
      posixRelative ctx.cwd fromPath ctx.prismaClientOutputPath
    else ctx.prismaClientOutputPath
  let needsClientSuffix := isNewPrismaClientGenerator ctx
    && ctx.isCustomPrismaClientOutputPath
    && !(strEndsWith prismaClientImportPath "/client")
    && !(occursIn "@prisma/client" prismaClientImportPath)
  let finalImportPath :=
    if needsClientSuffix then prismaClientImportPath ++ "/client"
    else prismaClientImportPath
  "import type \x7b Prisma \x7d from '" ++ finalImportPath ++ "';\n\n"

/-- `Transformer.generateJsonSchemaImplementation`: the shared lazily-recursive
JSON validator, emitted once per unit when some field used `jsonSchema`. -/
def generateJsonSchemaImplementation (hasJson : Bool) : String :=
  if hasJson then
    "\n" ++ "const literalSchema = z.union([z.string(), z.number(), z.boolean()]);\n"
      ++ "const jsonSchema = z.lazy((): z.ZodType<Prisma.InputJsonValue> =>\n"
      ++ "  z.union([literalSchema, z.array(jsonSchema.nullable()), z.record(z.string(), jsonSchema.nullable())])\n"
      ++ ");\n\n"
  else ""

/-! ## TypeAvailabilityOracle (`isPrismaTypeAvailable`,
`hasComplexRelations`) and ObjectSchemaAssembler -/

/-- The always-available utility type names of `isPrismaTypeAvailable`. -/
def builtInTypes : List String :=
  ["JsonNullValueFilter", "JsonNullValueInput", "NullableJsonNullValueInput",
   "SortOrder", "NullsOrder", "QueryMode", "TransactionIsolationLevel"]

/-- Provider-name prefixes stripped by `isPrismaTypeAvailable`'s anchored
regex, in the regex's alternation order. -/
def providerNames : List String :=
  ["MySQL", "PostgreSQL", "MongoDB", "SQLite", "SQLServer"]

/-- Strip a leading provider name (the regex `^(MySQL|PostgreSQL|...)` with
first-occurrence replacement). -/
def stripProviderName (name : String) : String :=
  match providerNames.find? (fun p => strStartsWith name p) with
  | some p => ⟨name.data.drop p.data.length⟩
  | none => name

/-- The canonical operation-input suffixes of `isPrismaTypeAvailable`. -/
def basicTypeSuffixes : List String :=
  ["Filter", "Select", "Include", "WhereInput", "OrderByWithRelationInput",
   "WhereUniqueInput", "CreateInput", "UpdateInput", "UncheckedCreateInput",
   "UncheckedUpdateInput", "InputEnvelope", "OperationsInput",
   "AggregatesInput", "WithAggregationInput", "InputType"]

/-- `Transformer.isPrismaTypeAvailable`. -/
def isPrismaTypeAvailable (name : String) : Bool :=
  if strEndsWith name "ScalarFieldEnum" then true
  else if strEndsWith name "OrderByRelevanceFieldEnum" then true
  else if name ∈ builtInTypes then true
  else
    let nameWithoutProvider := stripProviderName name
    basicTypeSuffixes.any (fun t => strEndsWith nameWithoutProvider t)

/-- The nested-relation name patterns of `hasComplexRelations`. -/
def complexRelationPatterns : List String :=
  ["CreateNestedOneWithout", "CreateNestedManyWithout", "WhereUniqueInput",
   "CreateWithout", "UncheckedCreateWithout"]

/-- `Transformer.hasComplexRelations` over the instance's fields. -/
def hasComplexRelations (name : String) (fields : List SchemaArg) : Bool :=
  fields.any fun f => f.inputTypes.any fun it =>
    it.location != "enumTypes" && it.ns == some "prisma" && it.type != name
      && complexRelationPatterns.any (fun p => occursIn p it.type)

/-- Modelled from the spec: `isMongodbRawOp` (from the `helpers` module, which
is not among the provided sources) recognizes the provider-specific
raw-operation argument shapes; per the spec's raw-operation remap table
(§4.5), these are exactly the names the remap table maps, so the predicate is
membership in the table's domain. -/
def isMongodbRawOp (rawOpsMap : List (String × String)) (name : String) : Bool :=
  (rawOpsMap.lookup name).isSome

/-- Modelled from the spec: `isAggregateInputType` (from the
`helpers/aggregate-helpers` module, not among the provided sources); per the
spec (§3 AggregateSupport, §4.6) the aggregate sub-schemas are the
count/min/max/avg/sum aggregate-input shapes, recognized by their canonical
suffixes. -/
def isAggregateInputType (name : String) : Bool :=
  ["CountAggregateInput", "MinAggregateInput", "MaxAggregateInput",
   "AvgAggregateInput", "SumAggregateInput"].any (fun s => strEndsWith name s)

/-- The `(name, exportName)` pair computed at the top of
`generateExportObjectSchemaStatement` (the mongodb raw-operation remap). -/
def exportNamePair (ctx : GenCtx) (thisName : String) : String × String :=
  if ctx.provider = "mongodb" ∧ isMongodbRawOp ctx.rawOpsMap thisName = true then
    let n := (ctx.rawOpsMap.lookup thisName).getD thisName
    (n, replaceFirst n "Args" "")
  else (thisName, thisName)

/-- `Transformer.generateExportObjectSchemaStatement`. -/
def generateExportObjectSchemaStatement (ctx : GenCtx) (thisName : String)
    (fields : List SchemaArg) (schema : String) : String :=
  let pair := exportNamePair ctx thisName
  let name := if isAggregateInputType pair.1 then pair.1 ++ "Type" else pair.1
  let endStmt := "export const " ++ pair.2 ++ "ObjectSchema = Schema"
  if isPrismaTypeAvailable name || hasComplexRelations thisName fields then
    "const Schema: z.ZodType<Prisma." ++ name ++ "> = " ++ schema ++ ";\n\n "
      ++ endStmt
  else
    "const Schema = " ++ schema ++ ";\n\n " ++ endStmt

/-- `Transformer.generateFieldValidators`. -/
def generateFieldValidators (z : String) (field : SchemaArg) : String :=
  let z1 := if field.isRequired then z else z ++ ".optional()"
  if field.isNullable then z1 ++ ".nullable()" else z1

/-- `Transformer.generateObjectSchemaFields`: every field line, trimmed
(`skipValidators` is always `true` in the tuples produced by
`generateObjectSchemaField`, but the source's conditional is kept). -/
def generateObjectSchemaFields (name : String) (fields : List SchemaArg) :
    List String :=
  ((fields.map (generateObjectSchemaField name)).flatten).map fun item =>
    jsTrim (if item.2.2 then item.1 else generateFieldValidators item.1 item.2.1)

/-- `Transformer.wrapWithZodObject` (the source concatenates the field array
into the template, which joins with a comma). -/
def wrapWithZodObject (zodStringFields : List String) : String :=
  "z.object(\x7b" ++ "\n" ++ "  " ++ joinSep "," zodStringFields ++ "\n" ++ "\x7d)"

/-- `Transformer.addFinalWrappers`: strict object validator. -/
def addFinalWrappers (zodStringFields : List String) : String :=
  wrapWithZodObject zodStringFields ++ ".strict()"

/-- `Transformer.prepareObjectSchema`: the full text of one composite/object
unit, given the instance state after the field pass. -/
def prepareObjectSchema (ctx : GenCtx) (name : String)
    (fields : List SchemaArg) (st : TState) : String :=
  let objectSchema :=
    generateExportObjectSchemaStatement ctx name fields
      (addFinalWrappers (generateObjectSchemaFields name fields)) ++ "\n"
  generateObjectSchemaImportStatements ctx st
    ++ generateImportPrismaStatement ctx none
    ++ generateJsonSchemaImplementation st.hasJson
    ++ objectSchema

/-- `Transformer.generateObjectSchema` as a state-passing function: computing
the field lines mutates the instance state (imports, `hasJson`); the text is
rendered from the resulting state. -/
def generateObjectSchemaUnit (ctx : GenCtx) (name : String)
    (fields : List SchemaArg) (st : TState) : String × TState :=
  let st1 := runState name fields st
  (prepareObjectSchema ctx name fields st1, st1)

/-- `Transformer.resolveObjectSchemaName`: the object unit's file stem. -/
def resolveObjectSchemaName (rawOpsMap : List (String × String))
    (name : String) : String :=
  if isMongodbRawOp rawOpsMap name then
    replaceFirst ((rawOpsMap.lookup name).getD name) "Args" ""
  else name

/-- The object unit's path below the schemas directory
(`objects/<stem>.schema.ts`). -/
def objectSchemaFilePath (rawOpsMap : List (String × String))
    (name : String) : String :=
  "objects/" ++ resolveObjectSchemaName rawOpsMap name ++ ".schema.ts"

/-! ## Enum and operation units -/

/-- JSON string-character escaping as performed by `JSON.stringify` (control
characters below `0x20` other than the named escapes do not occur in enum
values). -/
def jsonEscapeChar (c : Char) : String :=
  if c = '"' then "\\\"" else if c = '\\' then "\\\\"
  else if c = '\n' then "\\n" else if c = '\r' then "\\r"
  else if c = '\t' then "\\t" else if c = '\x08' then "\\b"
  else if c = '\x0c' then "\\f" else String.singleton c

/-- `JSON.stringify` of a string array. -/
def jsonStringifyStringArray (values : List String) : String :=
  "[" ++ joinSep ","
    (values.map fun v => "\"" ++ String.join (v.data.map jsonEscapeChar) ++ "\"")
    ++ "]"

/-- `Transformer.generateExportSchemaStatement`. -/
def generateExportSchemaStatement (name schema : String) : String :=
  "export const " ++ name ++ "Schema = " ++ schema

/-- The enum unit's path below the schemas directory
(`enums/<EnumName>.schema.ts`). -/
def enumUnitPath (name : String) : String := "enums/" ++ name ++ ".schema.ts"

/-- The enum unit's exported validator name. -/
def enumExportName (name : String) : String := name ++ "Schema"

/-- The full text of one enum unit (`generateEnumSchemas`). -/
def enumUnitContent (name : String) (values : List String) : String :=
  zodImportStatement ++ "\n"
    ++ generateExportSchemaStatement name
      ("z.enum(" ++ jsonStringifyStringArray values ++ ")")

/-- A per-operation unit's path below the schemas directory: the operation's
mapping name with `.schema.ts` appended (`generateModelSchemas` writes
`${operation}.schema.ts`). -/
def operationUnitPath (opName : String) : String := opName ++ ".schema.ts"

/-- The exported validator name of the findMany operation unit
(`generateExportSchemaStatement` applied to `${modelName}FindMany`). -/
def findManyExportedName (modelName : String) : String :=
  modelName ++ "FindMany" ++ "Schema"

/-- `Transformer.generateImportStatements` (falsy entries are dropped). -/
def generateImportStatements (imports : List String) : String :=
  zodImportStatement ++ joinSep ";\r\n" (imports.filter (· ≠ "")) ++ "\n\n"

/-- The `z.object` body of the createMany operation schema: data accepts one
create-many-input shape or an array of it; the `skipDuplicates` optional
boolean is present only for the two duplicate-skipping providers. -/
def createManyZObject (provider modelName : String) : String :=
  "z.object(\x7b data: z.union([ " ++ modelName
    ++ "CreateManyInputObjectSchema, z.array(" ++ modelName
    ++ "CreateManyInputObjectSchema) ]), "
    ++ (if provider = "postgresql" ∨ provider = "cockroachdb" then
          "skipDuplicates: z.boolean().optional()"
        else "")
    ++ " \x7d)"

/-- The full text of the createMany operation unit. -/
def createManyUnitText (ctx : GenCtx) (modelName : String) : String :=
  generateImportStatements
      [generateImportStatement ctx (modelName ++ "CreateManyInputObjectSchema")
        ("./objects/" ++ modelName ++ "CreateManyInput.schema")]
    ++ generateExportSchemaStatement (modelName ++ "CreateMany")
      (createManyZObject ctx.provider modelName)

/-! ## IncludeSelectGenerator (`src/helpers/include-helpers.ts`) -/

/-- One `DMMF.Model` field, as consumed by the relation helpers. -/
structure ModelField where
  name : String
  kind : String
  relationName : Option String
  isList : Bool
  type : String
deriving DecidableEq

/-- One `DMMF.Model`. -/
structure Model where
  name : String
  fields : List ModelField
deriving DecidableEq

/-- Modelled from the spec: `checkIsModelRelationField` (from the
`helpers/model-helpers` module, not among the provided sources).  Per the
spec's data model (§3), a relation field is a relation edge to another model:
a field of object kind participating in a named relation. -/
def checkIsModelRelationField (f : ModelField) : Bool :=
  f.kind == "object" && f.relationName.isSome

/-- Modelled from the spec: `checkIsManyModelRelationField` — a to-many
relation is a relation field with list cardinality (§3, §4.7). -/
def checkIsManyModelRelationField (f : ModelField) : Bool :=
  checkIsModelRelationField f && f.isList

/-- Modelled from the spec: `checkModelHasModelRelation` — a model has a
relation when some field is a relation field. -/
def checkModelHasModelRelation (m : Model) : Bool :=
  m.fields.any checkIsModelRelationField

/-- Modelled from the spec: `checkModelHasManyModelRelation` — a model has a
to-many relation when some field is a to-many relation field. -/
def checkModelHasManyModelRelation (m : Model) : Bool :=
  m.fields.any checkIsManyModelRelationField

/-- `DMMF.InputType` constraints (always `null`/`null` in the generated
include types). -/
structure Constraints where
  maxNumFields : Option Nat
  minNumFields : Option Nat
deriving DecidableEq

/-- A generated `DMMF.InputType`. -/
structure InputTypeDef where
  name : String
  constraints : Constraints
  fields : List SchemaArg
deriving DecidableEq

/-- The include-field built for one relation field: a boolean alternative and
a nested-args alternative (`<type>FindManyArgs` for a list relation,
`<type>DefaultArgs` otherwise). -/
def includeRelationArg (f : ModelField) : SchemaArg :=
  { name := f.name, isRequired := false, isNullable := false,
    inputTypes :=
      [⟨"Boolean", false, "scalar", none⟩,
       ⟨(if f.isList then f.type ++ "FindManyArgs" else f.type ++ "DefaultArgs"),
         false, "inputObjectTypes", some "prisma"⟩] }

/-- The synthetic `_count` field: boolean, plus the nested count-args shape
when select emission is enabled. -/
def includeCountArg (modelName : String) (isGenerateSelect : Bool) : SchemaArg :=
  { name := "_count", isRequired := false, isNullable := false,
    inputTypes :=
      [⟨"Boolean", false, "scalar", none⟩]
        ++ (if isGenerateSelect then
              [⟨modelName ++ "CountOutputTypeDefaultArgs", false,
                "inputObjectTypes", some "prisma"⟩]
            else []) }

/-- `generateModelIncludeInputObjectTypes` of
`src/helpers/include-helpers.ts`. -/
def generateModelIncludeInputObjectTypes (models : List Model)
    (isGenerateSelect : Bool) : List InputTypeDef :=
  models.foldl
    (fun acc model =>
      let fields := model.fields.foldl
        (fun fs f =>
          if checkIsModelRelationField f then fs ++ [includeRelationArg f]
          else fs) []
      if !(checkModelHasModelRelation model) then acc
      else
        let fields :=
          if checkModelHasManyModelRelation model then
            fields ++ [includeCountArg model.name isGenerateSelect]
          else fields
        acc ++ [{ name := model.name ++ "Include",
                  constraints := ⟨none, none⟩, fields := fields }]) []

/-! ## Generic fold lemmas -/

/-- A `reduce` that pushes `f a` when it resolves is a `filterMap`. -/
lemma foldl_push_filterMap {α β : Type} (f : α → Option β) :
    ∀ (l : List α) (acc : List β),
      l.foldl (fun r a => r ++ (f a).toList) acc = acc ++ l.filterMap f := by
  intro l
  induction l with
  | nil => intro acc; simp
  | cons a t ih =>
    intro acc
    cases h : f a <;> simp [List.foldl_cons, h, ih]

/-- A fold that pushes `g a` when `p a` holds is a `filter` followed by a
`map`. -/
lemma foldl_pushIf_filterMap {α β : Type} (p : α → Bool) (g : α → β) :
    ∀ (l : List α) (acc : List β),
      l.foldl (fun r a => if p a then r ++ [g a] else r) acc
        = acc ++ (l.filter p).map g := by
  intro l
  induction l with
  | nil => intro acc; simp
  | cons a t ih =>
    intro acc
    cases h : p a <;> simp [List.foldl_cons, h, ih]

/-- The alternative accumulator is the `filterMap` of the per-alternative
resolution over the field's alternatives, in metadata order. -/
lemma resolvableAlternatives_eq (name : String) (field : SchemaArg) :
    resolvableAlternatives name field
      = field.inputTypes.filterMap
          (altForInputType name field field.inputTypes.length) := by
  unfold resolvableAlternatives
  exact foldl_push_filterMap _ _ _

/-! ## Claim C1 -/

/-- Shared shape lemma: `generatePrismaStringLine` on a composite/object
alternative (location is not the enum location). -/
lemma gpsl_composite_eq (name : String) (field : SchemaArg)
    (it : InputType) (len : Nat) (h : it.location ≠ "enumTypes") :
    generatePrismaStringLine name field it len =
      (if len = 1 then "  " ++ field.name ++ ": " else "")
        ++ (if it.type = name ∨ it.ns = some "prisma" then
              "z.lazy(() => " ++ objectSchemaLineOf it.type ++ ")"
            else objectSchemaLineOf it.type)
        ++ (if it.isList then ".array()" else "")
        ++ (if field.isRequired then "" else ".optional()") := by
  by_cases hn : it.type = name
  · have hc : it.type = name ∨ (¬ it.location = "enumTypes" ∧ it.ns = some "prisma") :=
      Or.inl hn
    by_cases hlen : len = 1 <;>
      simp [generatePrismaStringLine, hc, hn, hlen, String.append_assoc]
  · by_cases hp : it.ns = some "prisma"
    · have hc : it.type = name ∨ (¬ it.location = "enumTypes" ∧ it.ns = some "prisma") :=
        Or.inr ⟨h, hp⟩
      by_cases hlen : len = 1 <;>
        simp [generatePrismaStringLine, hc, hn, hp, h, hlen, String.append_assoc]
    · have hc : ¬ (it.type = name ∨ (¬ it.location = "enumTypes" ∧ it.ns = some "prisma")) := by
        rintro (h1 | ⟨_, h2⟩)
        · exact hn h1
        · exact hp h2
      have hq : ¬ (it.type = name ∨ it.ns = some "prisma") := by
        rintro (h1 | h2)
        · exact hn h1
        · exact hp h2
      by_cases hlen : len = 1 <;>
        simp [generatePrismaStringLine, hc, hq, hn, hp, h, hlen, String.append_assoc]

/-- Claim C1: for a composite/object alternative (location is not the enum
location), `generatePrismaStringLine` wraps the reference in a `z.lazy`
deferred binding exactly when the target type name equals the composite
currently being generated or the alternative's namespace is `prisma`; every
other composite reference is emitted eagerly.  The reference itself, the
array wrapper and the optional wrapper are unchanged by the decision. -/
theorem c1_composite_lazy_iff (name : String) (field : SchemaArg)
    (it : InputType) (len : Nat) (h : it.location ≠ "enumTypes") :
    generatePrismaStringLine name field it len =
      (if len = 1 then "  " ++ field.name ++ ": " else "")
        ++ (if it.type = name ∨ it.ns = some "prisma" then
              "z.lazy(() => " ++ objectSchemaLineOf it.type ++ ")"
            else objectSchemaLineOf it.type)
        ++ (if it.isList then ".array()" else "")
        ++ (if field.isRequired then "" else ".optional()") :=
  gpsl_composite_eq name field it len h

/-- Witness for C1 at a concrete self-referential composite alternative. -/
theorem c1_witness :
    generatePrismaStringLine "UserWhereInput"
        ⟨"NOT", true, false, [⟨"UserWhereInput", true, "inputObjectTypes", some "prisma"⟩]⟩
        ⟨"UserWhereInput", true, "inputObjectTypes", some "prisma"⟩ 1
      = "  NOT: z.lazy(() => UserWhereInputObjectSchema).array()" := by
  have h := c1_composite_lazy_iff "UserWhereInput"
    ⟨"NOT", true, false, [⟨"UserWhereInput", true, "inputObjectTypes", some "prisma"⟩]⟩
    ⟨"UserWhereInput", true, "inputObjectTypes", some "prisma"⟩ 1 (by decide)
  rw [h]
  rfl

/-! ## Claim C3 -/

/-- Claim C3: each scalar alternative maps to its documented zod primitive,
with the array wrapper appended for a list alternative and then the optional
wrapper appended for a non-required field (array before optional); the JSON
primitive is the shared `jsonSchema` whose implementation is lazily
recursive; and at the field level the nullable wrapper is appended after the
optional wrapper. -/
theorem c3_scalar_mapping (name : String) (field : SchemaArg) (it : InputType)
    (len : Nat) :
    (it.type = "String" → altForInputType name field len it
        = some ("z.string()" ++ (if it.isList then ".array()" else "")
            ++ (if field.isRequired then "" else ".optional()")))
  ∧ (it.type = "Int" → altForInputType name field len it
        = some ("z.number().int()" ++ (if it.isList then ".array()" else "")
            ++ (if field.isRequired then "" else ".optional()")))
  ∧ (it.type = "Float" ∨ it.type = "Decimal" → altForInputType name field len it
        = some ("z.number()" ++ (if it.isList then ".array()" else "")
            ++ (if field.isRequired then "" else ".optional()")))
  ∧ (it.type = "BigInt" → altForInputType name field len it
        = some ("z.bigint()" ++ (if it.isList then ".array()" else "")
            ++ (if field.isRequired then "" else ".optional()")))
  ∧ (it.type = "Boolean" → altForInputType name field len it
        = some ("z.boolean()" ++ (if it.isList then ".array()" else "")
            ++ (if field.isRequired then "" else ".optional()")))
  ∧ (it.type = "DateTime" → altForInputType name field len it
        = some ("z.coerce.date()" ++ (if it.isList then ".array()" else "")
            ++ (if field.isRequired then "" else ".optional()")))
  ∧ (it.type = "Json" → altForInputType name field len it
        = some ("jsonSchema" ++ (if it.isList then ".array()" else "")
            ++ (if field.isRequired then "" else ".optional()")))
  ∧ (it.type = "True" → altForInputType name field len it
        = some ("z.literal(true)" ++ (if it.isList then ".array()" else "")
            ++ (if field.isRequired then "" else ".optional()")))
  ∧ (it.type = "Bytes" → altForInputType name field len it
        = some ("z.instanceof(Uint8Array)" ++ (if it.isList then ".array()" else "")
            ++ (if field.isRequired then "" else ".optional()")))
  ∧ occursIn "z.lazy" (generateJsonSchemaImplementation true) = true
  ∧ (∀ fname : String, it.type = "String" →
        generateObjectSchemaField name ⟨fname, false, true, [it]⟩
          = [("  " ++ ("  " ++ fname ++ ":") ++ " "
                ++ ("z.string()" ++ (if it.isList then ".array()" else "")
                    ++ ".optional()" ++ ".nullable()") ++ " ",
              ⟨fname, false, true, [it]⟩, true)]) := by
  refine ⟨?_, ?_, ?_, ?_, ?_, ?_, ?_, ?_, ?_, ?_, ?_⟩
  · intro h
    simp [altForInputType, scalarBaseValidator, h, wrapWithZodValidators]
  · intro h
    simp [altForInputType, scalarBaseValidator, h, wrapWithZodValidators]
  · rintro (h | h) <;>
      simp [altForInputType, scalarBaseValidator, h, wrapWithZodValidators]
  · intro h
    simp [altForInputType, scalarBaseValidator, h, wrapWithZodValidators]
  · intro h
    simp [altForInputType, scalarBaseValidator, h, wrapWithZodValidators]
  · intro h
    simp [altForInputType, scalarBaseValidator, h, wrapWithZodValidators]
  · intro h
    simp [altForInputType, scalarBaseValidator, h, wrapWithZodValidators]
  · intro h
    simp [altForInputType, scalarBaseValidator, h, wrapWithZodValidators]
  · intro h
    simp [altForInputType, scalarBaseValidator, h, wrapWithZodValidators]
  · rfl
  · intro fname h
    obtain ⟨t, l, loc, ns⟩ := it
    simp only [InputType.mk.injEq] at h ⊢
    subst h
    by_cases hL : l = true
    · subst hL
      simp [generateObjectSchemaField, resolvableAlternatives, altForInputType,
        scalarBaseValidator, wrapWithZodValidators, containsChar, joinSep,
        String.append_assoc]
    · have hL2 : l = false := by
        cases l
        · rfl
        · exact absurd rfl hL
      subst hL2
      simp [generateObjectSchemaField, resolvableAlternatives, altForInputType,
        scalarBaseValidator, wrapWithZodValidators, containsChar, joinSep,
        String.append_assoc]

/-- Witness for C3 at a concrete list-valued `DateTime` alternative of a
non-required field, plus the nullable-after-optional conjunct at a `String`
field. -/
theorem c3_witness :
    altForInputType "UserCreateInput"
        ⟨"dates", false, false, [⟨"DateTime", true, "scalar", none⟩]⟩ 1
        ⟨"DateTime", true, "scalar", none⟩
      = some "z.coerce.date().array().optional()"
  ∧ generateObjectSchemaField "UserCreateInput"
        ⟨"bio", false, true, [⟨"String", false, "scalar", none⟩]⟩
      = [("    bio: z.string().optional().nullable() ",
          ⟨"bio", false, true, [⟨"String", false, "scalar", none⟩]⟩, true)] := by
  constructor
  · have h := (c3_scalar_mapping "UserCreateInput"
      ⟨"dates", false, false, [⟨"DateTime", true, "scalar", none⟩]⟩
      ⟨"DateTime", true, "scalar", none⟩ 1).2.2.2.2.2.1 rfl
    rw [h]
    rfl
  · have h := (c3_scalar_mapping "UserCreateInput"
      ⟨"bio", false, true, [⟨"String", false, "scalar", none⟩]⟩
      ⟨"String", false, "scalar", none⟩ 1).2.2.2.2.2.2.2.2.2.2 "bio" rfl
    rw [h]
    rfl

/-! ## Claim C5 -/

/-- `scalarBaseValidator` misses exactly the types outside the recognized
scalar list. -/
lemma scalarBaseValidator_eq_none (t : String) :
    scalarBaseValidator t = none ↔ t ∉ scalarTypeNames := by
  constructor
  · intro h hmem
    simp only [scalarTypeNames, List.mem_cons, List.not_mem_nil, or_false] at hmem
    rcases hmem with h1 | h1 | h1 | h1 | h1 | h1 | h1 | h1 | h1 | h1 <;>
      subst h1 <;> simp [scalarBaseValidator] at h
  · intro h
    by_cases h1 : t = "String"
    · exact absurd (by simp [scalarTypeNames, h1]) h
    · by_cases h2 : t = "Int"
      · exact absurd (by simp [scalarTypeNames, h2]) h
      · by_cases h3 : t = "Float" ∨ t = "Decimal"
        · rcases h3 with h3 | h3 <;> exact absurd (by simp [scalarTypeNames, h3]) h
        · by_cases h4 : t = "BigInt"
          · exact absurd (by simp [scalarTypeNames, h4]) h
          · by_cases h5 : t = "Boolean"
            · exact absurd (by simp [scalarTypeNames, h5]) h
            · by_cases h6 : t = "DateTime"
              · exact absurd (by simp [scalarTypeNames, h6]) h
              · by_cases h7 : t = "Json"
                · exact absurd (by simp [scalarTypeNames, h7]) h
                · by_cases h8 : t = "True"
                  · exact absurd (by simp [scalarTypeNames, h8]) h
                  · by_cases h9 : t = "Bytes"
                    · exact absurd (by simp [scalarTypeNames, h9]) h
                    · simp [scalarBaseValidator, h1, h2, h3, h4, h5, h6, h7, h8, h9]

/-- Claim C5: an alternative is dropped (resolves to nothing, without error)
exactly when its type is not a recognized scalar, not at the enum location,
and not in the `prisma` namespace; and a field whose alternatives all drop
(or that has none) is omitted entirely from the composite object. -/
theorem c5_unresolvable_dropped (name : String) (field : SchemaArg)
    (len : Nat) (it : InputType) :
    (altForInputType name field len it = none ↔
        (it.type ∉ scalarTypeNames ∧ it.location ≠ "enumTypes"
          ∧ it.ns ≠ some "prisma"))
  ∧ (resolvableAlternatives name field = [] →
        generateObjectSchemaField name field = []) := by
  constructor
  · constructor
    · intro h
      cases hs : scalarBaseValidator it.type with
      | none =>
        have hns : ¬ (it.ns = some "prisma" ∨ it.location = "enumTypes") := by
          intro hor
          rw [altForInputType, hs] at h
          simp [hor] at h
        push_neg at hns
        exact ⟨(scalarBaseValidator_eq_none it.type).mp hs, hns.2, hns.1⟩
      | some v =>
        rw [altForInputType, hs] at h
        simp at h
    · rintro ⟨h1, h2, h3⟩
      have hs : scalarBaseValidator it.type = none :=
        (scalarBaseValidator_eq_none it.type).mpr h1
      rw [altForInputType, hs]
      simp [h2, h3]
  · intro h
    rw [generateObjectSchemaField]
    by_cases h0 : field.inputTypes.length = 0
    · simp [h0]
    · simp [h0, h]

/-- Witness for C5 at a field whose only alternative has an unrecognized
type: the alternative drops and the field is omitted. -/
theorem c5_witness :
    altForInputType "UserWhereInput"
        ⟨"meta", true, false, [⟨"FieldRefInput", false, "fieldRefTypes", none⟩]⟩ 1
        ⟨"FieldRefInput", false, "fieldRefTypes", none⟩ = none
  ∧ generateObjectSchemaField "UserWhereInput"
        ⟨"meta", true, false, [⟨"FieldRefInput", false, "fieldRefTypes", none⟩]⟩
      = [] := by
  constructor
  · exact ((c5_unresolvable_dropped "UserWhereInput"
      ⟨"meta", true, false, [⟨"FieldRefInput", false, "fieldRefTypes", none⟩]⟩ 1
      ⟨"FieldRefInput", false, "fieldRefTypes", none⟩).1).mpr (by decide)
  · exact (c5_unresolvable_dropped "UserWhereInput"
      ⟨"meta", true, false, [⟨"FieldRefInput", false, "fieldRefTypes", none⟩]⟩ 1
      ⟨"FieldRefInput", false, "fieldRefTypes", none⟩).2 (by decide)

/-! ## Claim C2 -/

/-- Claim C2: a field with exactly one resolvable alternative is emitted as
that alternative unchanged, with the nullable wrapper appended iff the field
is nullable; a field with two or more resolvable alternatives is emitted as a
union over the alternatives in metadata order with each member's own
optional wrapper stripped, exactly one optional wrapper appended at the
union's outer level iff the field is not required, and the nullable wrapper
appended last when nullable. -/
theorem c2_combined (name : String) (field : SchemaArg) :
    (∀ a, resolvableAlternatives name field = [a] →
        generateObjectSchemaField name field =
          [("  " ++ (if containsChar a ':' then "" else "  " ++ field.name ++ ":")
              ++ " " ++ (a ++ (if field.isNullable then ".nullable()" else ""))
              ++ " ", field, true)])
  ∧ (2 ≤ (resolvableAlternatives name field).length →
      generateObjectSchemaField name field =
        [("  "
            ++ (if ((resolvableAlternatives name field).map
                    (fun a => replaceFirst a ".optional()" "")).any
                      (fun a => containsChar a ':') then ""
                else "  " ++ field.name ++ ":")
            ++ " "
            ++ ("z.union(["
                  ++ joinSep ",\r\n" ((resolvableAlternatives name field).map
                      (fun a => replaceFirst a ".optional()" ""))
                  ++ "])"
                ++ (if field.isRequired then "" else ".optional()")
                ++ (if field.isNullable then ".nullable()" else ""))
            ++ " ", field, true)]) := by
  constructor
  · intro a ha
    have h0 : ¬ field.inputTypes.length = 0 := by
      intro h0
      have hle := List.length_filterMap_le
        (altForInputType name field field.inputTypes.length) field.inputTypes
      rw [← resolvableAlternatives_eq, ha, h0] at hle
      simp at hle
    by_cases hnul : field.isNullable <;>
      simp [generateObjectSchemaField, ha, h0, hnul, joinSep, String.append_assoc]
  · intro h2
    have h0 : ¬ field.inputTypes.length = 0 := by
      intro h0
      have hle := List.length_filterMap_le
        (altForInputType name field field.inputTypes.length) field.inputTypes
      rw [← resolvableAlternatives_eq, h0] at hle
      omega
    have hA : ¬ (resolvableAlternatives name field).length = 0 := by omega
    have hB : (resolvableAlternatives name field).length > 1 := by omega
    have hC : ¬ ((resolvableAlternatives name field).map
        (fun a => replaceFirst a ".optional()" "")).length = 1 := by
      simp only [List.length_map]
      omega
    have hD : ¬ (resolvableAlternatives name field).length = 1 := by omega
    by_cases hnul : field.isNullable <;>
      simp [generateObjectSchemaField, h0, hA, hB, hC, hD, hnul, String.append_assoc]

/-- Witness for C2: a field with two scalar alternatives combines into a
union of the optional-stripped members with a single outer optional wrapper,
and a field with one alternative is passed through with the nullable
wrapper appended. -/
theorem c2_witness :
    2 ≤ (resolvableAlternatives "UserWhereInput"
          ⟨"id", false, false,
            [⟨"String", false, "scalar", none⟩, ⟨"Int", true, "scalar", none⟩]⟩).length
  ∧ generateObjectSchemaField "UserWhereInput"
        ⟨"id", false, false,
          [⟨"String", false, "scalar", none⟩, ⟨"Int", true, "scalar", none⟩]⟩
      = [("    id: z.union([z.string(),\r\nz.number().int().array()]).optional() ",
          ⟨"id", false, false,
            [⟨"String", false, "scalar", none⟩, ⟨"Int", true, "scalar", none⟩]⟩,
          true)] := by
  constructor
  · decide
  · have h := (c2_combined "UserWhereInput"
      ⟨"id", false, false,
        [⟨"String", false, "scalar", none⟩, ⟨"Int", true, "scalar", none⟩]⟩).2
      (by decide)
    rw [h]
    rfl

/-! ## Claim C4 -/

/-- Counterexample to claim C4: an alternative denoting a derived
model-operation type (`PostFindManyArgs`, recognized by
`checkIsModelQueryType`) in the `prisma` namespace is emitted *with* a
deferred `z.lazy` wrapper around the operation schema name, not as a direct
reference — the lazy decision ignores the model-query classification. -/
theorem c4_counterexample :
    checkIsModelQueryType "PostFindManyArgs" = some ("Post", "findMany")
  ∧ generatePrismaStringLine "UserInclude"
        ⟨"posts", false, false,
          [⟨"Boolean", false, "scalar", none⟩,
           ⟨"PostFindManyArgs", false, "inputObjectTypes", some "prisma"⟩]⟩
        ⟨"PostFindManyArgs", false, "inputObjectTypes", some "prisma"⟩ 2
      = "z.lazy(() => PostFindManySchema).optional()"
  ∧ occursIn "z.lazy"
      (generatePrismaStringLine "UserInclude"
        ⟨"posts", false, false,
          [⟨"Boolean", false, "scalar", none⟩,
           ⟨"PostFindManyArgs", false, "inputObjectTypes", some "prisma"⟩]⟩
        ⟨"PostFindManyArgs", false, "inputObjectTypes", some "prisma"⟩ 2) = true := by
  refine ⟨rfl, rfl, rfl⟩

/-- Claim C4 (amended): an enum alternative whose type name differs from the
composite under generation is emitted as a direct, non-deferred reference to
`<type>Schema`; an alternative denoting a derived model-operation type
references `Capitalize(modelName) ++ Capitalize(queryName) ++ "Schema"`, but
the reference is deferred (wrapped in `z.lazy`) under the same rule as any
other composite — whenever the type name equals the composite under
generation or the namespace is `prisma` — and direct otherwise. -/
theorem c4_amended (name : String) (field : SchemaArg) (it : InputType)
    (len : Nat) :
    (it.location = "enumTypes" → it.type ≠ name →
        generatePrismaStringLine name field it len =
          (if len = 1 then "  " ++ field.name ++ ": " else "")
            ++ (it.type ++ "Schema")
            ++ (if it.isList then ".array()" else "")
            ++ (if field.isRequired then "" else ".optional()"))
  ∧ (∀ m q, it.location ≠ "enumTypes" →
        checkIsModelQueryType it.type = some (m, q) →
        generatePrismaStringLine name field it len =
          (if len = 1 then "  " ++ field.name ++ ": " else "")
            ++ (if it.type = name ∨ it.ns = some "prisma" then
                  "z.lazy(() => " ++ resolveModelQuerySchemaName m q ++ ")"
                else resolveModelQuerySchemaName m q)
            ++ (if it.isList then ".array()" else "")
            ++ (if field.isRequired then "" else ".optional()"))
  ∧ (∀ m q, resolveModelQuerySchemaName m q
        = capitalizeFirst m ++ capitalizeFirst q ++ "Schema") := by
  refine ⟨?_, ?_, fun m q => rfl⟩
  · intro hloc hn
    have hc : ¬ (it.type = name ∨ (¬ it.location = "enumTypes" ∧ it.ns = some "prisma")) := by
      rintro (h1 | ⟨h2, _⟩)
      · exact hn h1
      · exact h2 hloc
    by_cases hlen : len = 1 <;>
      simp [generatePrismaStringLine, hc, hn, hloc, hlen, String.append_assoc]
  · intro m q hloc hq
    have h := gpsl_composite_eq name field it len hloc
    rw [h, objectSchemaLineOf, hq]

/-- Witness for the amended C4: a non-self enum alternative is referenced
directly; a `prisma`-namespace model-operation alternative is referenced
through the operation schema name under a deferred binding. -/
theorem c4_amended_witness :
    generatePrismaStringLine "UserWhereInput"
        ⟨"sort", true, false, [⟨"SortOrder", false, "enumTypes", some "prisma"⟩]⟩
        ⟨"SortOrder", false, "enumTypes", some "prisma"⟩ 1
      = "  sort: SortOrderSchema"
  ∧ generatePrismaStringLine "UserInclude"
        ⟨"posts", false, false,
          [⟨"PostFindManyArgs", false, "inputObjectTypes", some "prisma"⟩]⟩
        ⟨"PostFindManyArgs", false, "inputObjectTypes", some "prisma"⟩ 1
      = "  posts: z.lazy(() => PostFindManySchema).optional()" := by
  constructor
  · have h := (c4_amended "UserWhereInput"
      ⟨"sort", true, false, [⟨"SortOrder", false, "enumTypes", some "prisma"⟩]⟩
      ⟨"SortOrder", false, "enumTypes", some "prisma"⟩ 1).1 rfl (by decide)
    rw [h]
    rfl
  · have h := (c4_amended "UserInclude"
      ⟨"posts", false, false,
        [⟨"PostFindManyArgs", false, "inputObjectTypes", some "prisma"⟩]⟩
      ⟨"PostFindManyArgs", false, "inputObjectTypes", some "prisma"⟩ 1).2.1
      "Post" "findMany" (by decide) rfl
    rw [h]
    rfl

/-! ## Claim C6 -/

/-- Claim C6: the createMany operation schema accepts `data` as a union of a
single create-many-input shape and an array of that shape, and it contains
the `skipDuplicates` key exactly when the provider is `postgresql` or
`cockroachdb`; for any other provider the emitted object is the same text
with the flag fragment entirely absent. -/
theorem c6_createMany_skipDuplicates (provider modelName : String) :
    ((occursIn "skipDuplicates" (createManyZObject provider "Post") = true)
        ↔ (provider = "postgresql" ∨ provider = "cockroachdb"))
  ∧ (provider = "postgresql" ∨ provider = "cockroachdb" →
      createManyZObject provider modelName =
        "z.object(\x7b data: z.union([ " ++ modelName
          ++ "CreateManyInputObjectSchema, z.array(" ++ modelName
          ++ "CreateManyInputObjectSchema) ]), "
          ++ "skipDuplicates: z.boolean().optional()" ++ " \x7d)")
  ∧ (provider ≠ "postgresql" → provider ≠ "cockroachdb" →
      createManyZObject provider modelName =
        "z.object(\x7b data: z.union([ " ++ modelName
          ++ "CreateManyInputObjectSchema, z.array(" ++ modelName
          ++ "CreateManyInputObjectSchema) ]), " ++ "" ++ " \x7d)") := by
  refine ⟨?_, ?_, ?_⟩
  · by_cases h : provider = "postgresql" ∨ provider = "cockroachdb"
    · simp only [createManyZObject, if_pos h]
      constructor
      · intro _
        exact h
      · intro _
        rfl
    · simp only [createManyZObject, if_neg h]
      constructor
      · intro hocc
        exact absurd hocc (by decide)
      · intro hpr
        exact absurd hpr h
  · intro h
    simp only [createManyZObject, if_pos h]
  · intro h1 h2
    have h : ¬ (provider = "postgresql" ∨ provider = "cockroachdb") := by
      rintro (h3 | h3)
      · exact h1 h3
      · exact h2 h3
    simp only [createManyZObject, if_neg h]

/-- Witness for C6: with the `mysql` provider the flag is entirely absent;
with `postgresql` it is present as an optional boolean. -/
theorem c6_witness :
    createManyZObject "mysql" "Post"
      = "z.object(\x7b data: z.union([ PostCreateManyInputObjectSchema, z.array(PostCreateManyInputObjectSchema) ]),  \x7d)"
  ∧ occursIn "skipDuplicates" (createManyZObject "mysql" "Post") = false
  ∧ createManyZObject "postgresql" "Post"
      = "z.object(\x7b data: z.union([ PostCreateManyInputObjectSchema, z.array(PostCreateManyInputObjectSchema) ]), skipDuplicates: z.boolean().optional() \x7d)" := by
  refine ⟨?_, ?_, ?_⟩
  · have h := (c6_createMany_skipDuplicates "mysql" "Post").2.2 (by decide) (by decide)
    rw [h]
    rfl
  · have h := (c6_createMany_skipDuplicates "mysql" "Post").1
    have h2 : ¬ ("mysql" = "postgresql" ∨ "mysql" = "cockroachdb") := by decide
    cases hb : occursIn "skipDuplicates" (createManyZObject "mysql" "Post")
    · rfl
    · exact absurd (h.mp hb) h2
  · have h := (c6_createMany_skipDuplicates "postgresql" "Post").2.1 (Or.inl rfl)
    rw [h]
    rfl

/-! ## Claim C7 -/

/-- Claim C7: a model without any relation field contributes no include input
type; a model with at least one relation field contributes exactly one,
named `<ModelName>Include`, whose fields are — in model order — one
boolean-or-nested-args pair per relation field (`FindManyArgs` for a list
relation, `DefaultArgs` otherwise), followed by a synthetic `_count` field
exactly when the model has a to-many relation; `_count`'s alternatives are
the boolean alone, plus the nested count-args shape exactly when select
emission is enabled. -/
theorem c7_include_generation (models : List Model) (sel : Bool) :
    generateModelIncludeInputObjectTypes models sel
      = models.filterMap (fun m =>
          if checkModelHasModelRelation m then
            some { name := m.name ++ "Include", constraints := ⟨none, none⟩,
                   fields :=
                     (m.fields.filter checkIsModelRelationField).map includeRelationArg
                       ++ (if checkModelHasManyModelRelation m then
                             [includeCountArg m.name sel]
                           else []) }
          else none)
  ∧ (∀ f : ModelField, (includeRelationArg f).inputTypes =
        [⟨"Boolean", false, "scalar", none⟩,
         ⟨(if f.isList then f.type ++ "FindManyArgs" else f.type ++ "DefaultArgs"),
           false, "inputObjectTypes", some "prisma"⟩])
  ∧ (∀ n : String, (includeCountArg n sel).name = "_count"
        ∧ (includeCountArg n sel).inputTypes =
            [⟨"Boolean", false, "scalar", none⟩]
              ++ (if sel then
                    [⟨n ++ "CountOutputTypeDefaultArgs", false,
                      "inputObjectTypes", some "prisma"⟩]
                  else [])) := by
  refine ⟨?_, fun f => rfl, fun n => ⟨rfl, rfl⟩⟩
  have hstep : ∀ (acc : List InputTypeDef) (model : Model),
      (fun acc model =>
        let fields := model.fields.foldl
          (fun fs f =>
            if checkIsModelRelationField f then fs ++ [includeRelationArg f]
            else fs) []
        if !(checkModelHasModelRelation model) then acc
        else
          let fields :=
            if checkModelHasManyModelRelation model then
              fields ++ [includeCountArg model.name sel]
            else fields
          acc ++ [{ name := model.name ++ "Include",
                    constraints := ⟨none, none⟩, fields := fields }]) acc model
      = acc ++ ((fun m =>
          if checkModelHasModelRelation m then
            some { name := m.name ++ "Include", constraints := (⟨none, none⟩ : Constraints),
                   fields :=
                     (m.fields.filter checkIsModelRelationField).map includeRelationArg
                       ++ (if checkModelHasManyModelRelation m then
                             [includeCountArg m.name sel]
                           else []) }
          else none) model).toList := by
    intro acc model
    simp only [foldl_pushIf_filterMap checkIsModelRelationField includeRelationArg
      model.fields [], List.nil_append]
    cases hrel : checkModelHasModelRelation model <;>
      cases hmany : checkModelHasManyModelRelation model <;>
        simp [hrel, hmany]
  rw [generateModelIncludeInputObjectTypes]
  rw [show (fun (acc : List InputTypeDef) (model : Model) =>
        let fields := model.fields.foldl
          (fun fs f =>
            if checkIsModelRelationField f then fs ++ [includeRelationArg f]
            else fs) []
        if !(checkModelHasModelRelation model) then acc
        else
          let fields :=
            if checkModelHasManyModelRelation model then
              fields ++ [includeCountArg model.name sel]
            else fields
          acc ++ [{ name := model.name ++ "Include",
                    constraints := ⟨none, none⟩, fields := fields }])
      = (fun acc model => acc ++ ((fun m =>
          if checkModelHasModelRelation m then
            some { name := m.name ++ "Include", constraints := (⟨none, none⟩ : Constraints),
                   fields :=
                     (m.fields.filter checkIsModelRelationField).map includeRelationArg
                       ++ (if checkModelHasManyModelRelation m then
                             [includeCountArg m.name sel]
                           else []) }
          else none) model).toList)
    from funext fun acc => funext fun model => hstep acc model]
  exact foldl_push_filterMap _ models []

/-- Witness for C7 at two concrete models: one without relations (dropped)
and one with a to-many relation (include type with the relation pair and a
`_count` field). -/
theorem c7_witness :
    generateModelIncludeInputObjectTypes
        [⟨"Log", [⟨"id", "scalar", none, false, "Int"⟩]⟩,
         ⟨"User", [⟨"id", "scalar", none, false, "Int"⟩,
                   ⟨"posts", "object", some "PostToUser", true, "Post"⟩]⟩] true
      = [{ name := "UserInclude", constraints := ⟨none, none⟩,
           fields :=
             [⟨"posts", false, false,
               [⟨"Boolean", false, "scalar", none⟩,
                ⟨"PostFindManyArgs", false, "inputObjectTypes", some "prisma"⟩]⟩,
              ⟨"_count", false, false,
               [⟨"Boolean", false, "scalar", none⟩,
                ⟨"UserCountOutputTypeDefaultArgs", false, "inputObjectTypes",
                  some "prisma"⟩]⟩] }] := by
  rw [(c7_include_generation
    [⟨"Log", [⟨"id", "scalar", none, false, "Int"⟩]⟩,
     ⟨"User", [⟨"id", "scalar", none, false, "Int"⟩,
               ⟨"posts", "object", some "PostToUser", true, "Post"⟩]⟩] true).1]
  rfl

/-! ## Claim C8 -/

/-- Counterexample to claim C8: the per-operation unit is written at the
operation mapping's own name (verb-first, e.g. `findManyUser.schema`), not at
`<ModelName><OperationVerb>.schema`; the generator's own cross-reference for
a `UserFindManyArgs` type imports from `../findManyUser.schema`, while the
unit's exported validator is `UserFindManySchema` — so the export name is not
derived by the same rule as the file path. -/
theorem c8_counterexample :
    operationUnitPath "findManyUser" = "findManyUser.schema.ts"
  ∧ operationUnitPath "findManyUser" ≠ "UserFindMany" ++ ".schema.ts"
  ∧ findManyExportedName "User" = "UserFindManySchema"
  ∧ schemaImportLine
        ⟨"postgresql", none, [], [], "./generated", "@prisma/client", false,
         "prisma-client-js", none, none, none, false, false, "/w"⟩
        "UserFindManyArgs"
      = "import \x7b UserFindManySchema \x7d from '../findManyUser.schema'" := by
  refine ⟨rfl, by decide, rfl, rfl⟩

set_option maxRecDepth 100000 in
/-- Claim C8 (amended): composite/object units are written at
`objects/<TypeName>.schema`, enum units at `enums/<EnumName>.schema`, and
per-operation units at `<operationName>.schema` where the operation name is
the mapping's verb-first action name (e.g. `findManyUser.schema`); each unit
exports exactly one named validator — `<EnumName>Schema`,
`<TypeName>ObjectSchema`, and `<ModelName><OperationVerb>Schema`
respectively — deterministically derived from the unit's identity, though
for operation units the export name orders (model, verb) oppositely to the
file stem. -/
theorem c8_amended (n m op : String) (v : List String) :
    enumUnitPath n = "enums/" ++ n ++ ".schema.ts"
  ∧ enumExportName n = n ++ "Schema"
  ∧ objectSchemaFilePath [] n = "objects/" ++ n ++ ".schema.ts"
  ∧ operationUnitPath op = op ++ ".schema.ts"
  ∧ findManyExportedName m = m ++ "FindMany" ++ "Schema"
  ∧ enumUnitContent n v
      = zodImportStatement ++ "\n" ++ ("export const " ++ enumExportName n
          ++ " = " ++ ("z.enum(" ++ jsonStringifyStringArray v ++ ")"))
  ∧ countOccursIn "export const " (enumUnitContent "Role" ["ADMIN", "USER"]) = 1
  ∧ countOccursIn "export const "
      (createManyUnitText
        ⟨"sqlite", none, [], [], "./generated", "@prisma/client", false,
         "prisma-client-js", none, none, none, false, false, "/w"⟩ "Post") = 1 := by
  refine ⟨rfl, rfl, ?_, rfl, rfl, ?_, ?_, ?_⟩
  · simp [objectSchemaFilePath, resolveObjectSchemaName, isMongodbRawOp,
      String.append_assoc]
  · simp [enumUnitContent, generateExportSchemaStatement, enumExportName,
      String.append_assoc]
  · rfl
  · rfl

/-! ## Claim C9 -/

/-- The state already contains everything processing `it` would contribute:
the import it would record is present, and `hasJson` is set if `it` is the
JSON scalar. -/
def Saturated (name : String) (it : InputType) (st : TState) : Prop :=
  (scalarBaseValidator it.type = none →
    (it.ns = some "prisma" ∨ it.location = "enumTypes") →
    it.type ≠ name → it.type ∈ st.imports)
  ∧ (it.type = "Json" → st.hasJson = true)

lemma addImport_mem (s : String) (st : TState) : s ∈ (addImport s st).imports := by
  rw [addImport]
  by_cases h : s ∈ st.imports <;> simp [h]

lemma addImport_mono (s t : String) (st : TState) (h : t ∈ st.imports) :
    t ∈ (addImport s st).imports := by
  rw [addImport]
  by_cases hs : s ∈ st.imports <;> simp [hs, h]

lemma addImport_hasJson (s : String) (st : TState) :
    (addImport s st).hasJson = st.hasJson := by
  rw [addImport]
  by_cases hs : s ∈ st.imports <;> simp [hs]

lemma addImport_stable (s : String) (st : TState) (h : s ∈ st.imports) :
    addImport s st = st := by
  simp [addImport, h]

lemma processInputType_mem (name : String) (st : TState) (it : InputType)
    (t : String) (h : t ∈ st.imports) :
    t ∈ (processInputType name st it).imports := by
  rw [processInputType]
  cases hs : scalarBaseValidator it.type
  · by_cases h1 : it.ns = some "prisma" ∨ it.location = "enumTypes"
    · by_cases h2 : it.type = name <;>
        simp [h1, h2, h, addImport_mono]
    · simp [h1, h]
  · by_cases h2 : it.type = "Json" <;> simp [h2, h]

lemma processInputType_hasJson (name : String) (st : TState) (it : InputType)
    (h : st.hasJson = true) : (processInputType name st it).hasJson = true := by
  rw [processInputType]
  cases hs : scalarBaseValidator it.type
  · by_cases h1 : it.ns = some "prisma" ∨ it.location = "enumTypes"
    · by_cases h2 : it.type = name <;>
        simp [h1, h2, h, addImport_hasJson]
    · simp [h1, h]
  · by_cases h2 : it.type = "Json" <;> simp [h2, h]

lemma processInputType_saturates (name : String) (st : TState) (it : InputType) :
    Saturated name it (processInputType name st it) := by
  constructor
  · intro hs hkeep hne
    rw [processInputType, hs]
    simp [hkeep, hne, addImport_mem]
  · intro hj
    have hs : scalarBaseValidator it.type = some "jsonSchema" := by
      rw [hj]
      rfl
    rw [processInputType, hs]
    simp [hj]

lemma processInputType_preserves (name : String) (st : TState)
    (it it' : InputType) (h : Saturated name it' st) :
    Saturated name it' (processInputType name st it) := by
  constructor
  · intro hs hkeep hne
    exact processInputType_mem name st it _ (h.1 hs hkeep hne)
  · intro hj
    exact processInputType_hasJson name st it (h.2 hj)

lemma processInputType_stable (name : String) (st : TState) (it : InputType)
    (h : Saturated name it st) : processInputType name st it = st := by
  rw [processInputType]
  cases hs : scalarBaseValidator it.type with
  | none =>
    by_cases h1 : it.ns = some "prisma" ∨ it.location = "enumTypes"
    · by_cases h2 : it.type = name
      · simp [h1, h2]
      · simp [h1, h2, addImport_stable _ _ (h.1 hs h1 h2)]
    · simp [h1]
  | some v =>
    by_cases h2 : it.type = "Json"
    · have hj := h.2 h2
      simp [h2]
      cases st
      simp_all
    · simp [h2]

lemma foldl_processInputType_preserves (name : String) (l : List InputType)
    (st : TState) (it' : InputType) (h : Saturated name it' st) :
    Saturated name it' (l.foldl (processInputType name) st) := by
  induction l generalizing st with
  | nil => exact h
  | cons a t ih =>
    exact ih (processInputType name st a) (processInputType_preserves name st a it' h)

lemma foldl_processInputType_saturates (name : String) (l : List InputType)
    (st : TState) : ∀ it ∈ l, Saturated name it (l.foldl (processInputType name) st) := by
  induction l generalizing st with
  | nil => intro it h; exact absurd h (List.not_mem_nil it)
  | cons a t ih =>
    intro it hmem
    rcases List.mem_cons.mp hmem with h | h
    · subst h
      exact foldl_processInputType_preserves name t (processInputType name st it) it
        (processInputType_saturates name st it)
    · exact ih (processInputType name st a) it h

lemma foldl_processInputType_stable (name : String) (l : List InputType)
    (st : TState) (h : ∀ it ∈ l, Saturated name it st) :
    l.foldl (processInputType name) st = st := by
  induction l with
  | nil => rfl
  | cons a t ih =>
    rw [List.foldl_cons,
      processInputType_stable name st a (h a (List.mem_cons_self a t))]
    exact ih fun it hit => h it (List.mem_cons_of_mem a hit)

/-- The field-by-field state pass is the flat pass over all alternatives. -/
lemma runState_eq_foldl (name : String) (fields : List SchemaArg) (st : TState) :
    runState name fields st
      = (fields.flatMap fun f => f.inputTypes).foldl (processInputType name) st := by
  induction fields generalizing st with
  | nil => rfl
  | cons f t ih =>
    rw [runState, List.foldl_cons, List.flatMap_cons, List.foldl_append]
    exact ih (processFieldState name st f)

/-- A second state pass over the same metadata is a no-op. -/
lemma runState_idem (name : String) (fields : List SchemaArg) (st : TState) :
    runState name fields (runState name fields st) = runState name fields st := by
  simp only [runState_eq_foldl]
  exact foldl_processInputType_stable name _ _
    (fun it hit => foldl_processInputType_saturates name _ st it hit)

/-- Claim C9: the metadata-to-text transform is deterministic and idempotent
for the composite/object units (the only stateful assembly): generating the
same unit again from identical metadata and context — even reusing the
instance state left by the first run — produces byte-identical text. -/
theorem c9_generation_idempotent (ctx : GenCtx) (name : String)
    (fields : List SchemaArg) (st0 : TState) :
    (generateObjectSchemaUnit ctx name fields
        (generateObjectSchemaUnit ctx name fields st0).2).1
      = (generateObjectSchemaUnit ctx name fields st0).1 := by
  show (generateObjectSchemaUnit ctx name fields (runState name fields st0)).1
      = (generateObjectSchemaUnit ctx name fields st0).1
  show prepareObjectSchema ctx name fields
      (runState name fields (runState name fields st0))
    = prepareObjectSchema ctx name fields (runState name fields st0)
  rw [runState_idem]

/-! ## Claim C10 -/

/-- Counterexample to claim C10: a configured output path ending in a
trailing separator after a `schemas` segment defeats the duplicate check —
the final split-segment of the normalized path is the empty string, not
`schemas`, so another `schemas` segment is appended and every generated unit
lands under a duplicated `schemas/schemas` directory. -/
theorem c10_counterexample :
    getSchemasPath "./generated/schemas/" = "generated/schemas/schemas"
  ∧ occursIn "schemas/schemas" (getSchemasPath "./generated/schemas/") = true := by
  refine ⟨rfl, rfl⟩

/-- Claim C10 (amended): the schemas directory equals the output path itself
when the final segment of the separator-split of the *normalized* output path
is exactly `schemas`, and equals the output path joined with a `schemas`
segment otherwise; a trailing separator makes the final split-segment empty,
so a path ending in `schemas/` still receives another `schemas` segment
(duplication is only avoided for paths whose normalized form ends in a
`schemas` segment with no trailing separator). -/
theorem c10_amended (p : String) :
    ((splitSlash (posixNormalize p)).getLastD "" = "schemas" →
        getSchemasPath p = p)
  ∧ ((splitSlash (posixNormalize p)).getLastD "" ≠ "schemas" →
        getSchemasPath p = posixJoin p "schemas")
  ∧ getSchemasPath "./generated" = "generated/schemas"
  ∧ getSchemasPath "./generated/schemas" = "./generated/schemas"
  ∧ getSchemasPath "/srv/out/schemas" = "/srv/out/schemas" := by
  refine ⟨?_, ?_, rfl, rfl, rfl⟩
  · intro h
    rw [List.getLastD_eq_getLast?] at h
    simp [getSchemasPath, h]
  · intro h
    rw [List.getLastD_eq_getLast?] at h
    simp [getSchemasPath, h]

/-- Witness for the amended C10 at a concrete path whose final segment is
`schemas`: the output path is used unchanged. -/
theorem c10_amended_witness :
    (splitSlash (posixNormalize "out/schemas")).getLastD "" = "schemas"
  ∧ getSchemasPath "out/schemas" = "out/schemas" := by
  constructor
  · rfl
  · exact (c10_amended "out/schemas").1 rfl

end PrismaZodGen
